import Mathlib

/-!
Shallow embedding of the Follyo crypto-portfolio tracker
(src/follyo/models.py, storage.py, portfolio.py) and proofs of the
specification claims.

Modelling conventions:
  * Python floats are embedded as rationals.
  * A persisted JSON mapping (a Python dict produced by dataclass
    asdict) is an association list from string keys to JSON-like
    values.
  * The persisted document is a structure with the holdings and loans
    sequences plus an optional sales sequence (legacy documents may
    lack the sales key; the code reads it with dict.get).
  * Fallible Python paths (KeyError on a missing key, TypeError in
    from_dict) are embedded as Option.
  * Nondeterministic inputs of create (the uuid-derived id, the
    current day) are passed as explicit arguments.
-/

namespace Follyo

/-- A JSON-like scalar value stored in a record mapping. -/
inductive JValue where
  | str : String → JValue
  | num : ℚ → JValue
  | null : JValue
deriving DecidableEq, Repr

/-- A flat key-value mapping, as produced by dataclass asdict. -/
abbrev JMap := List (String × JValue)

/-- Lookup of a key in a mapping; none models a missing key. -/
def jlookup (k : String) (m : JMap) : Option JValue :=
  (m.find? (fun p => p.1 = k)).map Prod.snd

/-- Embed an optional string field into a JValue (None becomes null). -/
def optStrVal : Option String → JValue
  | none => JValue.null
  | some s => JValue.str s

/-- Embed an optional numeric field into a JValue (None becomes null). -/
def optNumVal : Option ℚ → JValue
  | none => JValue.null
  | some q => JValue.num q

/-- Read a required string field, as dataclass construction uses it. -/
def getStr : Option JValue → Option String
  | some (JValue.str s) => some s
  | _ => none

/-- Read a required numeric field. -/
def getNum : Option JValue → Option ℚ
  | some (JValue.num q) => some q
  | _ => none

/-- Read an optional string field: a missing key or a null both
reconstruct as unset. -/
def getOptStr : Option JValue → Option (Option String)
  | some (JValue.str s) => some (some s)
  | some JValue.null => some none
  | none => some none
  | some (JValue.num _) => none

/-- Read an optional numeric field: a missing key or a null both
reconstruct as unset. -/
def getOptNum : Option JValue → Option (Option ℚ)
  | some (JValue.num q) => some (some q)
  | some JValue.null => some none
  | none => some none
  | some (JValue.str _) => none

/-- Python str.upper on the coin symbol, embedded as an ASCII
character map (the same map String.toUpper performs, written over the
character list so that it evaluates). -/
def pyUpper (s : String) : String := ⟨s.data.map Char.toUpper⟩

/-- The dataclass Holding of src/follyo/models.py. -/
structure Holding where
  id : String
  coin : String
  amount : ℚ
  purchase_price_usd : ℚ
  date : String
  platform : Option String
  notes : Option String
deriving DecidableEq, Repr

/-- Holding.create: builds a holding from caller fields, upper-casing
the coin; the generated uuid slice and the current day are explicit
arguments genId and today. -/
def Holding.create (genId today : String) (coin : String)
    (amount purchase_price_usd : ℚ) (platform notes : Option String)
    (date : Option String) : Holding :=
  { id := genId
    coin := pyUpper coin
    amount := amount
    purchase_price_usd := purchase_price_usd
    date := date.getD today
    platform := platform
    notes := notes }

/-- Holding.to_dict: dataclass asdict, keys in field order. -/
def Holding.to_dict (h : Holding) : JMap :=
  [("id", JValue.str h.id), ("coin", JValue.str h.coin),
   ("amount", JValue.num h.amount),
   ("purchase_price_usd", JValue.num h.purchase_price_usd),
   ("date", JValue.str h.date),
   ("platform", optStrVal h.platform), ("notes", optStrVal h.notes)]

/-- Keys accepted by the Holding dataclass constructor. -/
def Holding.fieldNames : List String :=
  ["id", "coin", "amount", "purchase_price_usd", "date", "platform", "notes"]

/-- Holding.from_dict: cls(**data). An unexpected key or a missing
required key is a TypeError, embedded as none; an absent optional key
falls back to the dataclass default None. -/
def Holding.from_dict (m : JMap) : Option Holding :=
  if m.all (fun p => Holding.fieldNames.contains p.1) then
    match getStr (jlookup "id" m), getStr (jlookup "coin" m),
        getNum (jlookup "amount" m), getNum (jlookup "purchase_price_usd" m),
        getStr (jlookup "date" m), getOptStr (jlookup "platform" m),
        getOptStr (jlookup "notes" m) with
    | some i, some c, some a, some p, some d, some pl, some n =>
        some ⟨i, c, a, p, d, pl, n⟩
    | _, _, _, _, _, _, _ => none
  else none

/-- Holding.total_value_usd: the derived value at purchase price. -/
def Holding.total_value_usd (h : Holding) : ℚ :=
  h.amount * h.purchase_price_usd

/-- The dataclass Loan of src/follyo/models.py. -/
structure Loan where
  id : String
  coin : String
  amount : ℚ
  platform : String
  date : String
  interest_rate : Option ℚ
  notes : Option String
deriving DecidableEq, Repr

/-- Loan.create: builds a loan from caller fields, upper-casing the
coin; the generated id and current day are explicit arguments. -/
def Loan.create (genId today : String) (coin : String) (amount : ℚ)
    (platform : String) (interest_rate : Option ℚ) (notes : Option String)
    (date : Option String) : Loan :=
  { id := genId
    coin := pyUpper coin
    amount := amount
    platform := platform
    date := date.getD today
    interest_rate := interest_rate
    notes := notes }

/-- Loan.to_dict: dataclass asdict, keys in field order. -/
def Loan.to_dict (l : Loan) : JMap :=
  [("id", JValue.str l.id), ("coin", JValue.str l.coin),
   ("amount", JValue.num l.amount), ("platform", JValue.str l.platform),
   ("date", JValue.str l.date),
   ("interest_rate", optNumVal l.interest_rate),
   ("notes", optStrVal l.notes)]

/-- Keys accepted by the Loan dataclass constructor. -/
def Loan.fieldNames : List String :=
  ["id", "coin", "amount", "platform", "date", "interest_rate", "notes"]

/-- Loan.from_dict: cls(**data), with the same conventions as
Holding.from_dict. -/
def Loan.from_dict (m : JMap) : Option Loan :=
  if m.all (fun p => Loan.fieldNames.contains p.1) then
    match getStr (jlookup "id" m), getStr (jlookup "coin" m),
        getNum (jlookup "amount" m), getStr (jlookup "platform" m),
        getStr (jlookup "date" m), getOptNum (jlookup "interest_rate" m),
        getOptStr (jlookup "notes" m) with
    | some i, some c, some a, some p, some d, some r, some n =>
        some ⟨i, c, a, p, d, r, n⟩
    | _, _, _, _, _, _, _ => none
  else none

/-- Modelled from the spec: the Sale record is described in the spec
(fields id, coin, amount, sell_price_usd, date, optional platform and
notes; derived total_value_usd) but its class is absent from
src/follyo/models.py, although storage.py imports it and cli.py uses
it. -/
structure Sale where
  id : String
  coin : String
  amount : ℚ
  sell_price_usd : ℚ
  date : String
  platform : Option String
  notes : Option String
deriving DecidableEq, Repr

/-- Modelled from the spec: Sale.create assigns the generated id,
upper-cases the coin and resolves the date, like the other kinds. -/
def Sale.create (genId today : String) (coin : String)
    (amount sell_price_usd : ℚ) (platform notes : Option String)
    (date : Option String) : Sale :=
  { id := genId
    coin := pyUpper coin
    amount := amount
    sell_price_usd := sell_price_usd
    date := date.getD today
    platform := platform
    notes := notes }

/-- Modelled from the spec: Sale.to_dict, keys in field order. -/
def Sale.to_dict (s : Sale) : JMap :=
  [("id", JValue.str s.id), ("coin", JValue.str s.coin),
   ("amount", JValue.num s.amount),
   ("sell_price_usd", JValue.num s.sell_price_usd),
   ("date", JValue.str s.date),
   ("platform", optStrVal s.platform), ("notes", optStrVal s.notes)]

/-- Keys accepted by the Sale constructor. -/
def Sale.fieldNames : List String :=
  ["id", "coin", "amount", "sell_price_usd", "date", "platform", "notes"]

/-- Modelled from the spec: Sale.from_dict, with the same conventions
as Holding.from_dict. -/
def Sale.from_dict (m : JMap) : Option Sale :=
  if m.all (fun p => Sale.fieldNames.contains p.1) then
    match getStr (jlookup "id" m), getStr (jlookup "coin" m),
        getNum (jlookup "amount" m), getNum (jlookup "sell_price_usd" m),
        getStr (jlookup "date" m), getOptStr (jlookup "platform" m),
        getOptStr (jlookup "notes" m) with
    | some i, some c, some a, some p, some d, some pl, some n =>
        some ⟨i, c, a, p, d, pl, n⟩
    | _, _, _, _, _, _, _ => none
  else none

/-- Modelled from the spec: Sale.total_value_usd, the derived value at
sell price. -/
def Sale.total_value_usd (s : Sale) : ℚ :=
  s.amount * s.sell_price_usd

/-- The persisted document of src/follyo/storage.py: three named
ordered sequences of record mappings. The sales key may be absent in a
legacy document, which the code reads with dict.get, so it is an
Option. -/
structure Document where
  holdings : List JMap
  loans : List JMap
  sales : Option (List JMap)
deriving DecidableEq, Repr

/-- The empty document written by the storage initializer. -/
def emptyDocument : Document := ⟨[], [], some []⟩

/-- The filesystem state a PortfolioStorage instance sees: whether the
parent directory of the data path exists, and the document at the data
path when one exists. -/
structure FsState where
  parentDirExists : Bool
  file : Option Document
deriving DecidableEq, Repr

namespace PortfolioStorage

/-- The init plus ensure-data-file sequence of PortfolioStorage: mkdir
the parent with parents and exist_ok, then write the empty document
only when no file exists. -/
def init (fs : FsState) : FsState :=
  { parentDirExists := true
    file := some (fs.file.getD emptyDocument) }

/-- PortfolioStorage.get_holdings: deserialize the holdings sequence
in stored order; a mapping Holding.from_dict rejects is a TypeError,
embedded as none. -/
def get_holdings (d : Document) : Option (List Holding) :=
  d.holdings.mapM Holding.from_dict

/-- PortfolioStorage.get_loans. -/
def get_loans (d : Document) : Option (List Loan) :=
  d.loans.mapM Loan.from_dict

/-- PortfolioStorage.get_sales: a document lacking the sales key reads
as empty via dict.get. -/
def get_sales (d : Document) : Option (List Sale) :=
  (d.sales.getD []).mapM Sale.from_dict

/-- PortfolioStorage.add_holding: append the mapping form to the end
of the holdings sequence, save, return the record unchanged. -/
def add_holding (h : Holding) (d : Document) : Holding × Document :=
  (h, { d with holdings := d.holdings ++ [h.to_dict] })

/-- PortfolioStorage.add_loan. -/
def add_loan (l : Loan) (d : Document) : Loan × Document :=
  (l, { d with loans := d.loans ++ [l.to_dict] })

/-- PortfolioStorage.add_sale: creates the sales sequence when the key
is absent, then appends. -/
def add_sale (s : Sale) (d : Document) : Sale × Document :=
  (s, { d with sales := some (d.sales.getD [] ++ [s.to_dict]) })

/-- The filter of the remove operations: keep the entries whose id
value differs from the searched id. Indexing a mapping without an id
key is a KeyError, embedded as none for the whole filter, exactly as
the Python comprehension raises on the first such entry. -/
def filterOutId (rid : String) : List JMap → Option (List JMap)
  | [] => some []
  | m :: rest =>
    match jlookup "id" m with
    | none => none
    | some v =>
      match filterOutId rid rest with
      | none => none
      | some rest' =>
        if v = JValue.str rid then some rest' else some (m :: rest')

/-- PortfolioStorage.remove_holding: filter out every matching entry,
save only when the sequence shrank, return whether a removal
occurred. On no removal the persisted document is unchanged. -/
def remove_holding (rid : String) (d : Document) : Option (Bool × Document) :=
  match filterOutId rid d.holdings with
  | none => none
  | some hs =>
    if hs.length < d.holdings.length then
      some (true, { d with holdings := hs })
    else some (false, d)

/-- PortfolioStorage.remove_loan. -/
def remove_loan (rid : String) (d : Document) : Option (Bool × Document) :=
  match filterOutId rid d.loans with
  | none => none
  | some ls =>
    if ls.length < d.loans.length then
      some (true, { d with loans := ls })
    else some (false, d)

/-- PortfolioStorage.remove_sale: reads the possibly absent sales
sequence with dict.get; when nothing is removed the document on disk
stays as it was. -/
def remove_sale (rid : String) (d : Document) : Option (Bool × Document) :=
  match filterOutId rid (d.sales.getD []) with
  | none => none
  | some ss =>
    if ss.length < (d.sales.getD []).length then
      some (true, { d with sales := some ss })
    else some (false, d)

end PortfolioStorage

namespace Portfolio

/-- Portfolio.add_holding: construct via Holding.create, persist via
storage, return the created record. -/
def add_holding (genId today : String) (coin : String)
    (amount purchase_price_usd : ℚ) (platform notes : Option String)
    (date : Option String) (d : Document) : Holding × Document :=
  PortfolioStorage.add_holding
    (Holding.create genId today coin amount purchase_price_usd platform
      notes date) d

/-- Portfolio.remove_holding: delegates to storage. -/
def remove_holding (rid : String) (d : Document) : Option (Bool × Document) :=
  PortfolioStorage.remove_holding rid d

/-- Portfolio.list_holdings: delegates to storage. -/
def list_holdings (d : Document) : Option (List Holding) :=
  PortfolioStorage.get_holdings d

/-- Portfolio.add_loan: construct via Loan.create, persist via
storage, return the created record. -/
def add_loan (genId today : String) (coin : String) (amount : ℚ)
    (platform : String) (interest_rate : Option ℚ) (notes : Option String)
    (date : Option String) (d : Document) : Loan × Document :=
  PortfolioStorage.add_loan
    (Loan.create genId today coin amount platform interest_rate notes date) d

/-- Portfolio.remove_loan: delegates to storage. -/
def remove_loan (rid : String) (d : Document) : Option (Bool × Document) :=
  PortfolioStorage.remove_loan rid d

/-- Portfolio.list_loans: delegates to storage. -/
def list_loans (d : Document) : Option (List Loan) :=
  PortfolioStorage.get_loans d

/-- Modelled from the spec: Portfolio.add_sale is described in the
spec and called by cli.py, but the method is absent from
src/follyo/portfolio.py; it constructs via Sale.create, persists via
the existing PortfolioStorage.add_sale, and returns the created
record. -/
def add_sale (genId today : String) (coin : String)
    (amount sell_price_usd : ℚ) (platform notes : Option String)
    (date : Option String) (d : Document) : Sale × Document :=
  PortfolioStorage.add_sale
    (Sale.create genId today coin amount sell_price_usd platform notes date) d

/-- Modelled from the spec: Portfolio.remove_sale is absent from
src/follyo/portfolio.py; it delegates to the existing
PortfolioStorage.remove_sale and returns whether found-and-removed. -/
def remove_sale (rid : String) (d : Document) : Option (Bool × Document) :=
  PortfolioStorage.remove_sale rid d

/-- Modelled from the spec: Portfolio.list_sales is absent from
src/follyo/portfolio.py; it delegates to the existing
PortfolioStorage.get_sales, returning sales in storage order. -/
def list_sales (d : Document) : Option (List Sale) :=
  PortfolioStorage.get_sales d

end Portfolio

/-- One defaultdict update step of the by-coin aggregation loops:
add the amount onto the coin's entry, inserting the coin at the end
on first sight, as Python dict insertion order does. -/
def bumpCoin (acc : List (String × ℚ)) (c : String) (a : ℚ) :
    List (String × ℚ) :=
  if acc.any (fun p => p.1 = c) then
    acc.map (fun p => if p.1 = c then (p.1, p.2 + a) else p)
  else acc ++ [(c, a)]

/-- The loop body of Portfolio.get_holdings_by_coin over a holdings
list. -/
def holdingsByCoin (hs : List Holding) : List (String × ℚ) :=
  hs.foldl (fun acc h => bumpCoin acc h.coin h.amount) []

/-- The loop body of Portfolio.get_loans_by_coin over a loans list. -/
def loansByCoin (ls : List Loan) : List (String × ℚ) :=
  ls.foldl (fun acc l => bumpCoin acc l.coin l.amount) []

/-- Python dict.get(c, 0) on an aggregation result. -/
def qget (c : String) (m : List (String × ℚ)) : ℚ :=
  ((m.find? (fun p => p.1 = c)).map Prod.snd).getD 0

namespace Portfolio

/-- Portfolio.get_holdings_by_coin: aggregate amounts by coin over the
listed holdings. -/
def get_holdings_by_coin (d : Document) : Option (List (String × ℚ)) :=
  (list_holdings d).map holdingsByCoin

/-- Portfolio.get_loans_by_coin. -/
def get_loans_by_coin (d : Document) : Option (List (String × ℚ)) :=
  (list_loans d).map loansByCoin

/-- Portfolio.get_net_holdings_by_coin: over the union of the coins of
the two aggregates (Python set iteration order is unspecified; the
embedding picks deduplicated concatenation order), holdings total
minus loans total with missing sides defaulting to zero. -/
def get_net_holdings_by_coin (d : Document) : Option (List (String × ℚ)) :=
  match get_holdings_by_coin d, get_loans_by_coin d with
  | some hb, some lb =>
    some (((hb.map Prod.fst ++ lb.map Prod.fst).dedup).map
      (fun c => (c, qget c hb - qget c lb)))
  | _, _ => none

/-- Portfolio.get_total_invested_usd: Python sum over the holdings'
derived total_value_usd, a left fold from zero. -/
def get_total_invested_usd (d : Document) : Option ℚ :=
  (list_holdings d).map
    (fun hs => hs.foldl (fun s h => s + h.total_value_usd) 0)

end Portfolio

/-- A value of the summary bundle: a count, a USD total, or a by-coin
mapping. -/
inductive SVal where
  | count : ℕ → SVal
  | usd : ℚ → SVal
  | byCoin : List (String × ℚ) → SVal
deriving DecidableEq, Repr

namespace Portfolio

/-- Portfolio.get_summary: bundles the two counts, the invested total
and the three per-coin aggregates, in the key order of the source. -/
def get_summary (d : Document) : Option (List (String × SVal)) :=
  match list_holdings d, list_loans d, get_total_invested_usd d,
      get_holdings_by_coin d, get_loans_by_coin d,
      get_net_holdings_by_coin d with
  | some hs, some ls, some ti, some hb, some lb, some nb =>
    some [("total_holdings_count", SVal.count hs.length),
          ("total_loans_count", SVal.count ls.length),
          ("total_invested_usd", SVal.usd ti),
          ("holdings_by_coin", SVal.byCoin hb),
          ("loans_by_coin", SVal.byCoin lb),
          ("net_by_coin", SVal.byCoin nb)]
  | _, _, _, _, _, _ => none

end Portfolio

/-- Specification-side total: the amount sum of one coin's holdings. -/
def holdingsTotal (c : String) (hs : List Holding) : ℚ :=
  ((hs.filter (fun h => h.coin = c)).map Holding.amount).sum

/-- Specification-side total: the amount sum of one coin's loans. -/
def loansTotal (c : String) (ls : List Loan) : ℚ :=
  ((ls.filter (fun l => l.coin = c)).map Loan.amount).sum

/-! Concrete sample data used by the witness and counterexample
theorems. All records are built through create, so every document
below is a state reachable through the Portfolio Service. -/

/-- A sample holding: 3 BTC at 2 USD. -/
def sampleHolding : Holding :=
  Holding.create "aaaa1111" "2024-01-05" "btc" 3 2 (some "Binance") none none

/-- A second sample holding: 10 ETH at 5 USD, with an explicit date. -/
def sampleHolding2 : Holding :=
  Holding.create "bbbb2222" "2024-01-06" "eth" 10 5 none none
    (some "2024-01-02")

/-- A sample loan: 1 BTC on Nexo at 4 percent. -/
def sampleLoan : Loan :=
  Loan.create "cccc3333" "2024-01-07" "btc" 1 "Nexo" (some 4) none none

/-- A sample sale: 2 BTC at 7 USD. -/
def sampleSale : Sale :=
  Sale.create "dddd4444" "2024-01-08" "btc" 2 7 none none none

/-- A populated sample document. -/
def sampleDoc : Document :=
  ⟨[sampleHolding.to_dict, sampleHolding2.to_dict], [sampleLoan.to_dict],
   some [sampleSale.to_dict]⟩

/-- A document holding one zero-amount BTC record, reachable through
add_holding since amounts are never validated. -/
def zeroAmountDoc : Document :=
  ⟨[(Holding.create "eeee5555" "2024-01-09" "btc" 0 100 none none
      none).to_dict], [], some []⟩

/-! Helper lemmas about the defaultdict aggregation loop. -/

lemma fst_bumpEntry (c : String) (a : ℚ) (p : String × ℚ) :
    (if p.1 = c then (p.1, p.2 + a) else p).1 = p.1 := by
  split <;> rfl

lemma qget_bumpCoin (acc : List (String × ℚ)) (c : String) (a : ℚ)
    (x : String) :
    qget x (bumpCoin acc c a) = qget x acc + if x = c then a else 0 := by
  unfold bumpCoin qget
  split
  · rename_i hany
    rw [List.find?_map]
    have hcomp : ((fun p : String × ℚ => decide (p.1 = x)) ∘
        (fun p : String × ℚ => if p.1 = c then (p.1, p.2 + a) else p))
        = fun p : String × ℚ => decide (p.1 = x) := by
      funext p
      simp [Function.comp, fst_bumpEntry]
    rw [hcomp]
    cases hfind : acc.find? (fun p => p.1 = x) with
    | none =>
      have hxc : ¬x = c := by
        intro hxc
        subst hxc
        rcases List.any_eq_true.mp hany with ⟨p, hp, hpc⟩
        have hnone := List.find?_eq_none.mp hfind p hp
        simp only [decide_eq_true_eq] at hpc hnone
        exact hnone hpc
      simp [hxc]
    | some q =>
      have hq : q.1 = x := by simpa using List.find?_some hfind
      by_cases hxc : x = c
      · simp [hq, hxc]
      · simp [hq, hxc]
  · rename_i hany
    rw [List.find?_append]
    cases hfind : acc.find? (fun p => p.1 = x) with
    | none =>
      by_cases hxc : x = c
      · subst hxc
        simp [List.find?]
      · simp [List.find?, Ne.symm hxc, hxc]
    | some q =>
      have hq : q.1 = x := by simpa using List.find?_some hfind
      have hxc : ¬x = c := by
        intro h
        subst h
        exact hany (List.any_eq_true.mpr
          ⟨q, List.mem_of_find?_eq_some hfind, by simp [hq]⟩)
      simp [hxc]

lemma keys_bumpCoin (acc : List (String × ℚ)) (c : String) (a : ℚ)
    (x : String) :
    x ∈ (bumpCoin acc c a).map Prod.fst
      ↔ x ∈ acc.map Prod.fst ∨ x = c := by
  unfold bumpCoin
  split
  · rename_i hany
    have hkeys : (acc.map
          (fun p => if p.1 = c then (p.1, p.2 + a) else p)).map Prod.fst
        = acc.map Prod.fst := by
      rw [List.map_map]
      exact List.map_congr_left (fun p _ => fst_bumpEntry c a p)
    rw [hkeys]
    constructor
    · exact Or.inl
    · rintro (h | rfl)
      · exact h
      · rcases List.any_eq_true.mp hany with ⟨p, hp, hpc⟩
        simp only [decide_eq_true_eq] at hpc
        exact hpc ▸ List.mem_map_of_mem Prod.fst hp
  · simp only [List.map_append, List.mem_append, List.map_cons,
      List.map_nil, List.mem_cons, List.not_mem_nil, or_false]

lemma qget_foldl_bump (ps : List (String × ℚ)) :
    ∀ (acc : List (String × ℚ)) (x : String),
    qget x (ps.foldl (fun a p => bumpCoin a p.1 p.2) acc)
      = qget x acc + ((ps.filter (fun p => p.1 = x)).map Prod.snd).sum := by
  induction ps with
  | nil =>
    intro acc x
    simp
  | cons p t ih =>
    intro acc x
    simp only [List.foldl_cons]
    rw [ih, qget_bumpCoin]
    by_cases hp : p.1 = x
    · subst hp
      simp [List.filter_cons]
      ring
    · have hx : ¬x = p.1 := fun h => hp h.symm
      simp [List.filter_cons, hp, hx]

lemma keys_foldl_bump (ps : List (String × ℚ)) :
    ∀ (acc : List (String × ℚ)) (x : String),
    x ∈ (ps.foldl (fun a p => bumpCoin a p.1 p.2) acc).map Prod.fst
      ↔ x ∈ acc.map Prod.fst ∨ x ∈ ps.map Prod.fst := by
  induction ps with
  | nil =>
    intro acc x
    simp
  | cons p t ih =>
    intro acc x
    simp only [List.foldl_cons]
    rw [ih, keys_bumpCoin]
    simp only [List.map_cons, List.mem_cons]
    tauto

lemma holdingsByCoin_eq_foldl_pairs (hs : List Holding) :
    holdingsByCoin hs
      = (hs.map (fun h => (h.coin, h.amount))).foldl
          (fun a p => bumpCoin a p.1 p.2) [] := by
  rw [List.foldl_map]
  rfl

lemma loansByCoin_eq_foldl_pairs (ls : List Loan) :
    loansByCoin ls
      = (ls.map (fun l => (l.coin, l.amount))).foldl
          (fun a p => bumpCoin a p.1 p.2) [] := by
  rw [List.foldl_map]
  rfl

lemma qget_holdingsByCoin (hs : List Holding) (x : String) :
    qget x (holdingsByCoin hs) = holdingsTotal x hs := by
  rw [holdingsByCoin_eq_foldl_pairs, qget_foldl_bump]
  simp [qget, holdingsTotal, List.filter_map, Function.comp_def, List.map_map]

lemma qget_loansByCoin (ls : List Loan) (x : String) :
    qget x (loansByCoin ls) = loansTotal x ls := by
  rw [loansByCoin_eq_foldl_pairs, qget_foldl_bump]
  simp [qget, loansTotal, List.filter_map, Function.comp_def, List.map_map]

lemma mem_keys_holdingsByCoin (hs : List Holding) (x : String) :
    x ∈ (holdingsByCoin hs).map Prod.fst ↔ x ∈ hs.map Holding.coin := by
  rw [holdingsByCoin_eq_foldl_pairs, keys_foldl_bump]
  simp [List.map_map, Function.comp]

lemma mem_keys_loansByCoin (ls : List Loan) (x : String) :
    x ∈ (loansByCoin ls).map Prod.fst ↔ x ∈ ls.map Loan.coin := by
  rw [loansByCoin_eq_foldl_pairs, keys_foldl_bump]
  simp [List.map_map, Function.comp]

lemma qget_eq_zero_of_not_mem (m : List (String × ℚ)) (x : String)
    (h : x ∉ m.map Prod.fst) : qget x m = 0 := by
  have hnone : m.find? (fun p => p.1 = x) = none := by
    apply List.find?_eq_none.mpr
    intro p hp
    simp only [decide_eq_true_eq]
    intro hpx
    exact h (hpx ▸ List.mem_map_of_mem Prod.fst hp)
  simp [qget, hnone]

lemma qget_map_pair (coins : List String) (f : String → ℚ) (x : String) :
    qget x (coins.map (fun c => (c, f c)))
      = if x ∈ coins then f x else 0 := by
  induction coins with
  | nil => simp [qget]
  | cons c t ih =>
    simp only [List.map_cons]
    by_cases hc : c = x
    · subst hc
      simp [qget, List.find?_cons_of_pos]
    · unfold qget at ih ⊢
      rw [List.find?_cons_of_neg _ (by simp [hc])]
      rw [ih]
      simp [List.mem_cons, Ne.symm hc]

lemma foldl_add_invested (hs : List Holding) :
    ∀ a : ℚ, hs.foldl (fun s h => s + h.total_value_usd) a
      = a + (hs.map (fun h => h.amount * h.purchase_price_usd)).sum := by
  induction hs with
  | nil =>
    intro a
    simp
  | cons h t ih =>
    intro a
    simp only [List.foldl_cons, List.map_cons, List.sum_cons]
    rw [ih]
    simp [Holding.total_value_usd]
    ring

/-! Helper lemmas about the remove filter. -/

lemma filterOutId_eq (rid : String) (xs : List JMap)
    (h : ∀ m ∈ xs, (jlookup "id" m).isSome = true) :
    PortfolioStorage.filterOutId rid xs
      = some (xs.filter
          (fun m => ¬jlookup "id" m = some (JValue.str rid))) := by
  induction xs with
  | nil => rfl
  | cons m rest ih =>
    have hm := h m (List.mem_cons_self m rest)
    cases hv : jlookup "id" m with
    | none =>
      rw [hv] at hm
      simp at hm
    | some v =>
      unfold PortfolioStorage.filterOutId
      rw [hv, ih (fun a ha => h a (List.mem_cons_of_mem _ ha))]
      by_cases hvr : v = JValue.str rid
      · simp [List.filter_cons, hv, hvr]
      · simp [List.filter_cons, hv, hvr]

lemma length_filter_keep (rid : String) (xs : List JMap) :
    (xs.filter (fun m => ¬jlookup "id" m = some (JValue.str rid))).length
      + xs.countP (fun m => jlookup "id" m = some (JValue.str rid))
      = xs.length := by
  induction xs with
  | nil => rfl
  | cons m rest ih =>
    by_cases hm : jlookup "id" m = some (JValue.str rid)
    · simp [List.filter_cons, List.countP_cons, hm] at ih ⊢
      omega
    · simp [List.filter_cons, List.countP_cons, hm] at ih ⊢
      omega

lemma countP_id_le_one (rid : String) (xs : List JMap)
    (hnd : (xs.map (jlookup "id")).Nodup) :
    xs.countP (fun m => jlookup "id" m = some (JValue.str rid)) ≤ 1 := by
  induction xs with
  | nil => simp
  | cons m rest ih =>
    simp only [List.map_cons, List.nodup_cons] at hnd
    by_cases hm : jlookup "id" m = some (JValue.str rid)
    · rw [List.countP_cons_of_pos _ _ (by simp [hm])]
      have hz : rest.countP
          (fun a => jlookup "id" a = some (JValue.str rid)) = 0 := by
        apply List.countP_eq_zero.mpr
        intro a ha
        simp only [decide_eq_true_eq]
        intro hca
        exact hnd.1 (by
          rw [hm, ← hca]
          exact List.mem_map_of_mem (jlookup "id") ha)
      omega
    · rw [List.countP_cons_of_neg _ _ (by simp [hm])]
      exact ih hnd.2

/-! The claim theorems. -/

/-- Claim C1: the Portfolio Service provides the full sale operation
set alongside holdings and loans. Its add_sale constructs a Sale
record via Sale.create, persists it via storage by appending its
mapping to the sales sequence, and returns the created record;
remove_sale and list_sales delegate to the corresponding storage
operations, the latter returning the stored (insertion) order. -/
theorem claim_C1 (genId today coin : String) (amount price : ℚ)
    (platform notes : Option String) (date : Option String)
    (d : Document) (rid : String) :
    Portfolio.add_sale genId today coin amount price platform notes date d
      = (Sale.create genId today coin amount price platform notes date,
         { d with sales := some (d.sales.getD []
             ++ [(Sale.create genId today coin amount price platform notes
                   date).to_dict]) })
    ∧ Portfolio.remove_sale rid d = PortfolioStorage.remove_sale rid d
    ∧ Portfolio.list_sales d = PortfolioStorage.get_sales d :=
  ⟨rfl, rfl, rfl⟩

/-- Claim C7: for every record built by a create constructor,
from_dict after to_dict reproduces an equal record for all three
kinds, including unset optionals reconstructed as unset, and from_dict
on a mapping whose optional keys are entirely missing reconstructs
those fields as unset rather than erroring. -/
theorem claim_C7 :
    (∀ (genId today coin : String) (amount price : ℚ)
      (platform notes : Option String) (date : Option String),
      Holding.from_dict (Holding.create genId today coin amount price
          platform notes date).to_dict
        = some (Holding.create genId today coin amount price platform
            notes date))
    ∧ (∀ (genId today coin : String) (amount : ℚ) (lplatform : String)
      (interest_rate : Option ℚ) (notes : Option String)
      (date : Option String),
      Loan.from_dict (Loan.create genId today coin amount lplatform
          interest_rate notes date).to_dict
        = some (Loan.create genId today coin amount lplatform
            interest_rate notes date))
    ∧ (∀ (genId today coin : String) (amount price : ℚ)
      (platform notes : Option String) (date : Option String),
      Sale.from_dict (Sale.create genId today coin amount price platform
          notes date).to_dict
        = some (Sale.create genId today coin amount price platform notes
            date))
    ∧ (∀ (i c : String) (a p : ℚ) (dt : String),
      Holding.from_dict
          [("id", JValue.str i), ("coin", JValue.str c),
           ("amount", JValue.num a), ("purchase_price_usd", JValue.num p),
           ("date", JValue.str dt)]
        = some ⟨i, c, a, p, dt, none, none⟩)
    ∧ (∀ (i c : String) (a : ℚ) (pf dt : String),
      Loan.from_dict
          [("id", JValue.str i), ("coin", JValue.str c),
           ("amount", JValue.num a), ("platform", JValue.str pf),
           ("date", JValue.str dt)]
        = some ⟨i, c, a, pf, dt, none, none⟩)
    ∧ (∀ (i c : String) (a p : ℚ) (dt : String),
      Sale.from_dict
          [("id", JValue.str i), ("coin", JValue.str c),
           ("amount", JValue.num a), ("sell_price_usd", JValue.num p),
           ("date", JValue.str dt)]
        = some ⟨i, c, a, p, dt, none, none⟩) := by
  refine ⟨?_, ?_, ?_, ?_, ?_, ?_⟩
  · intro genId today coin amount price platform notes date
    cases platform <;> cases notes <;>
      simp [Holding.from_dict, Holding.to_dict, Holding.create,
        Holding.fieldNames, jlookup, List.find?, optStrVal, getStr, getNum,
        getOptStr]
  · intro genId today coin amount lplatform interest_rate notes date
    cases interest_rate <;> cases notes <;>
      simp [Loan.from_dict, Loan.to_dict, Loan.create, Loan.fieldNames,
        jlookup, List.find?, optStrVal, optNumVal, getStr, getNum,
        getOptStr, getOptNum]
  · intro genId today coin amount price platform notes date
    cases platform <;> cases notes <;>
      simp [Sale.from_dict, Sale.to_dict, Sale.create, Sale.fieldNames,
        jlookup, List.find?, optStrVal, getStr, getNum, getOptStr]
  · intro i c a p dt
    simp [Holding.from_dict, Holding.fieldNames, jlookup, List.find?,
      getStr, getNum, getOptStr]
  · intro i c a pf dt
    simp [Loan.from_dict, Loan.fieldNames, jlookup, List.find?, getStr,
      getNum, getOptStr, getOptNum]
  · intro i c a p dt
    simp [Sale.from_dict, Sale.fieldNames, jlookup, List.find?, getStr,
      getNum, getOptStr]

/-- Claim C8: storage initialization is idempotent. Against a location
with no document it creates a document with all three sequences empty
and creates the parent directory; against an existing, possibly
populated, location it leaves the document unchanged and never
truncates it. -/
theorem claim_C8 (fs : FsState) (pd : Bool) (d : Document) :
    PortfolioStorage.init ⟨pd, none⟩ = ⟨true, some emptyDocument⟩
    ∧ emptyDocument = ⟨[], [], some []⟩
    ∧ PortfolioStorage.init ⟨pd, some d⟩ = ⟨true, some d⟩
    ∧ PortfolioStorage.init (PortfolioStorage.init fs)
        = PortfolioStorage.init fs
    ∧ (PortfolioStorage.init fs).parentDirExists = true :=
  ⟨rfl, rfl, rfl, rfl, rfl⟩

/-- Claim C9: records created through add_holding or add_loan carry
the upper-cased input coin, both in the returned record and in the
mapping appended to the stored document, for every input case; in
particular a lower-case btc input is stored and returned as BTC. -/
theorem claim_C9 (genId today coin : String) (amount price lamount : ℚ)
    (platform notes : Option String) (lplatform : String)
    (interest_rate : Option ℚ) (date : Option String) (d : Document) :
    (Portfolio.add_holding genId today coin amount price platform notes
        date d).1.coin = pyUpper coin
    ∧ jlookup "coin" (Portfolio.add_holding genId today coin amount price
        platform notes date d).1.to_dict = some (JValue.str (pyUpper coin))
    ∧ (Portfolio.add_holding genId today coin amount price platform notes
        date d).2.holdings
      = d.holdings ++ [(Portfolio.add_holding genId today coin amount
          price platform notes date d).1.to_dict]
    ∧ (Portfolio.add_loan genId today coin lamount lplatform interest_rate
        notes date d).1.coin = pyUpper coin
    ∧ jlookup "coin" (Portfolio.add_loan genId today coin lamount
        lplatform interest_rate notes date d).1.to_dict
      = some (JValue.str (pyUpper coin))
    ∧ (Portfolio.add_loan genId today coin lamount lplatform interest_rate
        notes date d).2.loans
      = d.loans ++ [(Portfolio.add_loan genId today coin lamount lplatform
          interest_rate notes date d).1.to_dict]
    ∧ (Holding.create genId today "btc" amount price platform notes
        date).coin = "BTC" := by
  exact ⟨rfl, rfl, rfl, rfl, rfl, rfl, rfl⟩

/-- Claim C10: frame property of the storage operations. Each add
appends exactly one mapping to the end of its own sequence and leaves
the other two sequences unchanged; each remove leaves the other two
sequences unchanged whatever it returns. -/
theorem claim_C10 (d : Document) (h : Holding) (l : Loan) (s : Sale)
    (rid : String) :
    ((PortfolioStorage.add_holding h d).2.holdings
        = d.holdings ++ [h.to_dict]
      ∧ (PortfolioStorage.add_holding h d).2.loans = d.loans
      ∧ (PortfolioStorage.add_holding h d).2.sales = d.sales)
    ∧ ((PortfolioStorage.add_loan l d).2.loans = d.loans ++ [l.to_dict]
      ∧ (PortfolioStorage.add_loan l d).2.holdings = d.holdings
      ∧ (PortfolioStorage.add_loan l d).2.sales = d.sales)
    ∧ ((PortfolioStorage.add_sale s d).2.sales
        = some (d.sales.getD [] ++ [s.to_dict])
      ∧ (PortfolioStorage.add_sale s d).2.holdings = d.holdings
      ∧ (PortfolioStorage.add_sale s d).2.loans = d.loans)
    ∧ (∀ b e, PortfolioStorage.remove_holding rid d = some (b, e) →
        e.loans = d.loans ∧ e.sales = d.sales)
    ∧ (∀ b e, PortfolioStorage.remove_loan rid d = some (b, e) →
        e.holdings = d.holdings ∧ e.sales = d.sales)
    ∧ (∀ b e, PortfolioStorage.remove_sale rid d = some (b, e) →
        e.holdings = d.holdings ∧ e.loans = d.loans) := by
  refine ⟨⟨rfl, rfl, rfl⟩, ⟨rfl, rfl, rfl⟩, ⟨rfl, rfl, rfl⟩, ?_, ?_, ?_⟩
  · intro b e he
    unfold PortfolioStorage.remove_holding at he
    split at he
    · simp at he
    · split at he <;>
        (simp only [Option.some.injEq, Prod.mk.injEq] at he;
         rw [← he.2];
         exact ⟨rfl, rfl⟩)
  · intro b e he
    unfold PortfolioStorage.remove_loan at he
    split at he
    · simp at he
    · split at he <;>
        (simp only [Option.some.injEq, Prod.mk.injEq] at he;
         rw [← he.2];
         exact ⟨rfl, rfl⟩)
  · intro b e he
    unfold PortfolioStorage.remove_sale at he
    split at he
    · simp at he
    · split at he <;>
        (simp only [Option.some.injEq, Prod.mk.injEq] at he;
         rw [← he.2];
         exact ⟨rfl, rfl⟩)

/-- Witness for claim C10: the remove clauses applied at a concrete
document and a nonexistent id. -/
theorem claim_C10_witness :
    sampleDoc.loans = sampleDoc.loans ∧ sampleDoc.sales = sampleDoc.sales :=
  (claim_C10 sampleDoc sampleHolding sampleLoan sampleSale
    "zzzz9999").2.2.2.1 false sampleDoc (by decide)

/-- Claim C4: get_total_invested_usd equals the sum over the stored
holdings of amount times purchase price, the derived total_value_usd,
and sale records contribute nothing to the figure. -/
theorem claim_C4 (d : Document) (hs : List Holding)
    (hh : Portfolio.list_holdings d = some hs) :
    Portfolio.get_total_invested_usd d
        = some ((hs.map (fun h => h.amount * h.purchase_price_usd)).sum)
    ∧ ∀ s, Portfolio.get_total_invested_usd { d with sales := s }
        = Portfolio.get_total_invested_usd d := by
  constructor
  · unfold Portfolio.get_total_invested_usd
    rw [hh]
    simp [foldl_add_invested]
  · intro s
    rfl

/-- Witness for claim C4 at the populated sample document. -/
theorem claim_C4_witness :
    Portfolio.get_total_invested_usd sampleDoc
      = some (([sampleHolding, sampleHolding2].map
          (fun h => h.amount * h.purchase_price_usd)).sum) :=
  (claim_C4 sampleDoc [sampleHolding, sampleHolding2] (by decide)).1

/-- Claim C6, amended: the by-coin aggregates map each coin to the
amount sum of that coin's records, and a coin is present in the
mapping exactly when it appears in some record of the collection; a
coin none of whose records exist is absent, but a coin whose stored
amounts sum to zero is emitted with value zero, not omitted. -/
theorem claim_C6 (d : Document) (hs : List Holding) (ls : List Loan)
    (hh : Portfolio.list_holdings d = some hs)
    (hl : Portfolio.list_loans d = some ls) :
    Portfolio.get_holdings_by_coin d = some (holdingsByCoin hs)
    ∧ Portfolio.get_loans_by_coin d = some (loansByCoin ls)
    ∧ (∀ c, qget c (holdingsByCoin hs) = holdingsTotal c hs)
    ∧ (∀ c, c ∈ (holdingsByCoin hs).map Prod.fst
        ↔ c ∈ hs.map Holding.coin)
    ∧ (∀ c, qget c (loansByCoin ls) = loansTotal c ls)
    ∧ (∀ c, c ∈ (loansByCoin ls).map Prod.fst ↔ c ∈ ls.map Loan.coin) := by
  refine ⟨?_, ?_, qget_holdingsByCoin hs, mem_keys_holdingsByCoin hs,
    qget_loansByCoin ls, mem_keys_loansByCoin ls⟩
  · unfold Portfolio.get_holdings_by_coin
    rw [hh]
    rfl
  · unfold Portfolio.get_loans_by_coin
    rw [hl]
    rfl

/-- Witness for the amended claim C6 at the populated sample
document. -/
theorem claim_C6_witness :
    Portfolio.get_holdings_by_coin sampleDoc
        = some (holdingsByCoin [sampleHolding, sampleHolding2])
    ∧ Portfolio.get_loans_by_coin sampleDoc
        = some (loansByCoin [sampleLoan])
    ∧ (∀ c, qget c (holdingsByCoin [sampleHolding, sampleHolding2])
        = holdingsTotal c [sampleHolding, sampleHolding2])
    ∧ (∀ c, c ∈ (holdingsByCoin [sampleHolding, sampleHolding2]).map
          Prod.fst
        ↔ c ∈ [sampleHolding, sampleHolding2].map Holding.coin)
    ∧ (∀ c, qget c (loansByCoin [sampleLoan]) = loansTotal c [sampleLoan])
    ∧ (∀ c, c ∈ (loansByCoin [sampleLoan]).map Prod.fst
        ↔ c ∈ [sampleLoan].map Loan.coin) :=
  claim_C6 sampleDoc [sampleHolding, sampleHolding2] [sampleLoan]
    (by decide) (by decide)

/-- Counterexample to claim C6 as stated: in the reachable document
holding one zero-amount BTC record, the coin BTC has amount total zero
yet is present in the mapping with a zero value, so a zero-valued
entry is emitted. -/
theorem claim_C6_counterexample :
    Portfolio.get_holdings_by_coin zeroAmountDoc = some [("BTC", 0)]
    ∧ holdingsTotal "BTC"
        [Holding.create "eeee5555" "2024-01-09" "btc" 0 100 none none
          none] = 0
    ∧ "BTC" ∈ (holdingsByCoin
        [Holding.create "eeee5555" "2024-01-09" "btc" 0 100 none none
          none]).map Prod.fst := by
  refine ⟨by decide, ?_, by decide⟩
  rw [← qget_holdingsByCoin]
  decide

/-- Claim C2: get_net_holdings_by_coin returns a mapping whose keys
are exactly the union of the coins of holdings and loans, each mapped
to the holdings amount total minus the loans amount total with missing
sides zero, and the sales sequence, whatever its contents, has no
effect on the result. -/
theorem claim_C2 (d : Document) (hs : List Holding) (ls : List Loan)
    (hh : Portfolio.list_holdings d = some hs)
    (hl : Portfolio.list_loans d = some ls) :
    (∃ n, Portfolio.get_net_holdings_by_coin d = some n
      ∧ (∀ c, c ∈ n.map Prod.fst
          ↔ (c ∈ hs.map Holding.coin ∨ c ∈ ls.map Loan.coin))
      ∧ (∀ c, qget c n = holdingsTotal c hs - loansTotal c ls))
    ∧ (∀ s, Portfolio.get_net_holdings_by_coin { d with sales := s }
        = Portfolio.get_net_holdings_by_coin d) := by
  have hhb : Portfolio.get_holdings_by_coin d = some (holdingsByCoin hs) := by
    unfold Portfolio.get_holdings_by_coin
    rw [hh]
    rfl
  have hlb : Portfolio.get_loans_by_coin d = some (loansByCoin ls) := by
    unfold Portfolio.get_loans_by_coin
    rw [hl]
    rfl
  constructor
  · refine ⟨((holdingsByCoin hs).map Prod.fst
        ++ (loansByCoin ls).map Prod.fst).dedup.map
          (fun c => (c, qget c (holdingsByCoin hs)
            - qget c (loansByCoin ls))), ?_, ?_, ?_⟩
    · simp only [Portfolio.get_net_holdings_by_coin, hhb, hlb]
    · intro c
      rw [List.map_map]
      have hid : (Prod.fst ∘ fun c => (c, qget c (holdingsByCoin hs)
          - qget c (loansByCoin ls))) = id := rfl
      rw [hid, List.map_id, List.mem_dedup, List.mem_append,
        mem_keys_holdingsByCoin, mem_keys_loansByCoin]
    · intro c
      rw [qget_map_pair]
      by_cases hc : c ∈ ((holdingsByCoin hs).map Prod.fst
          ++ (loansByCoin ls).map Prod.fst).dedup
      · rw [if_pos hc, qget_holdingsByCoin, qget_loansByCoin]
      · rw [if_neg hc]
        rw [List.mem_dedup, List.mem_append] at hc
        push_neg at hc
        rw [← qget_holdingsByCoin, ← qget_loansByCoin,
          qget_eq_zero_of_not_mem _ _ hc.1,
          qget_eq_zero_of_not_mem _ _ hc.2]
        norm_num
  · intro s
    rfl

/-- Witness for claim C2 at the populated sample document. -/
theorem claim_C2_witness :
    ∃ n, Portfolio.get_net_holdings_by_coin sampleDoc = some n
      ∧ (∀ c, c ∈ n.map Prod.fst
          ↔ (c ∈ [sampleHolding, sampleHolding2].map Holding.coin
            ∨ c ∈ [sampleLoan].map Loan.coin))
      ∧ (∀ c, qget c n = holdingsTotal c [sampleHolding, sampleHolding2]
          - loansTotal c [sampleLoan]) :=
  (claim_C2 sampleDoc [sampleHolding, sampleHolding2] [sampleLoan]
    (by decide) (by decide)).1

/-- Claim C3: get_summary bundles total_holdings_count and
total_loans_count as the two collection lengths, total_invested_usd as
the get_total_invested_usd result, and the three per-coin aggregates,
and exposes exactly those six keys, so no sales count appears in the
bundle. -/
theorem claim_C3 (d : Document) (hs : List Holding) (ls : List Loan)
    (hh : Portfolio.list_holdings d = some hs)
    (hl : Portfolio.list_loans d = some ls) :
    ∃ ti hb lb nb,
      Portfolio.get_total_invested_usd d = some ti
      ∧ Portfolio.get_holdings_by_coin d = some hb
      ∧ Portfolio.get_loans_by_coin d = some lb
      ∧ Portfolio.get_net_holdings_by_coin d = some nb
      ∧ Portfolio.get_summary d
        = some [("total_holdings_count", SVal.count hs.length),
                ("total_loans_count", SVal.count ls.length),
                ("total_invested_usd", SVal.usd ti),
                ("holdings_by_coin", SVal.byCoin hb),
                ("loans_by_coin", SVal.byCoin lb),
                ("net_by_coin", SVal.byCoin nb)]
      ∧ (Portfolio.get_summary d).map (List.map Prod.fst)
        = some ["total_holdings_count", "total_loans_count",
                "total_invested_usd", "holdings_by_coin",
                "loans_by_coin", "net_by_coin"] := by
  have h1 : Portfolio.get_total_invested_usd d
      = some (hs.foldl (fun s h => s + h.total_value_usd) 0) := by
    unfold Portfolio.get_total_invested_usd
    rw [hh]
    rfl
  have h2 : Portfolio.get_holdings_by_coin d = some (holdingsByCoin hs) := by
    unfold Portfolio.get_holdings_by_coin
    rw [hh]
    rfl
  have h3 : Portfolio.get_loans_by_coin d = some (loansByCoin ls) := by
    unfold Portfolio.get_loans_by_coin
    rw [hl]
    rfl
  have h4 : Portfolio.get_net_holdings_by_coin d
      = some (((holdingsByCoin hs).map Prod.fst
          ++ (loansByCoin ls).map Prod.fst).dedup.map
            (fun c => (c, qget c (holdingsByCoin hs)
              - qget c (loansByCoin ls)))) := by
    simp only [Portfolio.get_net_holdings_by_coin, h2, h3]
  have h5 : Portfolio.get_summary d
      = some [("total_holdings_count", SVal.count hs.length),
              ("total_loans_count", SVal.count ls.length),
              ("total_invested_usd",
                SVal.usd (hs.foldl (fun s h => s + h.total_value_usd) 0)),
              ("holdings_by_coin", SVal.byCoin (holdingsByCoin hs)),
              ("loans_by_coin", SVal.byCoin (loansByCoin ls)),
              ("net_by_coin", SVal.byCoin
                (((holdingsByCoin hs).map Prod.fst
                  ++ (loansByCoin ls).map Prod.fst).dedup.map
                    (fun c => (c, qget c (holdingsByCoin hs)
                      - qget c (loansByCoin ls)))))] := by
    unfold Portfolio.get_summary
    rw [hh, hl, h1, h2, h3, h4]
  exact ⟨_, _, _, _, h1, h2, h3, h4, h5, by rw [h5]; rfl⟩

/-- Witness for claim C3 at the populated sample document. -/
theorem claim_C3_witness :
    ∃ ti hb lb nb,
      Portfolio.get_total_invested_usd sampleDoc = some ti
      ∧ Portfolio.get_holdings_by_coin sampleDoc = some hb
      ∧ Portfolio.get_loans_by_coin sampleDoc = some lb
      ∧ Portfolio.get_net_holdings_by_coin sampleDoc = some nb
      ∧ Portfolio.get_summary sampleDoc
        = some [("total_holdings_count",
                  SVal.count [sampleHolding, sampleHolding2].length),
                ("total_loans_count", SVal.count [sampleLoan].length),
                ("total_invested_usd", SVal.usd ti),
                ("holdings_by_coin", SVal.byCoin hb),
                ("loans_by_coin", SVal.byCoin lb),
                ("net_by_coin", SVal.byCoin nb)]
      ∧ (Portfolio.get_summary sampleDoc).map (List.map Prod.fst)
        = some ["total_holdings_count", "total_loans_count",
                "total_invested_usd", "holdings_by_coin",
                "loans_by_coin", "net_by_coin"] :=
  claim_C3 sampleDoc [sampleHolding, sampleHolding2] [sampleLoan]
    (by decide) (by decide)

lemma keep_length_lt_iff (rid : String) (xs : List JMap) :
    (xs.filter
        (fun m => ¬jlookup "id" m = some (JValue.str rid))).length
        < xs.length
      ↔ ∃ m ∈ xs, jlookup "id" m = some (JValue.str rid) := by
  have h := length_filter_keep rid xs
  constructor
  · intro hlt
    have hpos : 0 < xs.countP
        (fun m => jlookup "id" m = some (JValue.str rid)) := by omega
    simpa using List.countP_pos_iff.mp hpos
  · rintro ⟨m, hm, hmm⟩
    have hpos : 0 < xs.countP
        (fun m => jlookup "id" m = some (JValue.str rid)) :=
      List.countP_pos_iff.mpr ⟨m, hm, by simp [hmm]⟩
    omega

lemma keep_length_nodup (rid : String) (xs : List JMap)
    (hnd : (xs.map (jlookup "id")).Nodup)
    (hlt : (xs.filter
        (fun m => ¬jlookup "id" m = some (JValue.str rid))).length
        < xs.length) :
    (xs.filter
        (fun m => ¬jlookup "id" m = some (JValue.str rid))).length + 1
      = xs.length := by
  have h := length_filter_keep rid xs
  have hle := countP_id_le_one rid xs hnd
  omega

/-- Claim C5: remove semantics. Given that every stored entry carries
an id key (true of every state written by the API), remove returns
some boolean rather than raising, the boolean is true exactly when a
matching entry exists, a false return leaves the document unchanged, a
true return leaves the sequence filtered of every matching entry with
all others in their original order and the other sequences untouched,
and under id-uniqueness a removal shrinks the sequence by exactly
one. A nonexistent id therefore yields false, never an error. Proved
for remove_holding and remove_sale, the two cited shapes. -/
theorem claim_C5 (d : Document) (rid : String) :
    ((∀ m ∈ d.holdings, (jlookup "id" m).isSome = true) →
      ∃ b e, PortfolioStorage.remove_holding rid d = some (b, e)
        ∧ (b = true ↔ ∃ m ∈ d.holdings,
            jlookup "id" m = some (JValue.str rid))
        ∧ (b = false → e = d)
        ∧ (b = true → e.holdings = d.holdings.filter
              (fun m => ¬jlookup "id" m = some (JValue.str rid))
            ∧ e.loans = d.loans ∧ e.sales = d.sales)
        ∧ ((d.holdings.map (jlookup "id")).Nodup → b = true →
            e.holdings.length + 1 = d.holdings.length))
    ∧ ((∀ m ∈ d.sales.getD [], (jlookup "id" m).isSome = true) →
      ∃ b e, PortfolioStorage.remove_sale rid d = some (b, e)
        ∧ (b = true ↔ ∃ m ∈ d.sales.getD [],
            jlookup "id" m = some (JValue.str rid))
        ∧ (b = false → e = d)
        ∧ (b = true → e.sales = some ((d.sales.getD []).filter
              (fun m => ¬jlookup "id" m = some (JValue.str rid)))
            ∧ e.holdings = d.holdings ∧ e.loans = d.loans)
        ∧ (((d.sales.getD []).map (jlookup "id")).Nodup → b = true →
            (e.sales.getD []).length + 1 = (d.sales.getD []).length)) := by
  constructor
  · intro hids
    have hfil := filterOutId_eq rid d.holdings hids
    by_cases hlt : (d.holdings.filter
        (fun m => ¬jlookup "id" m = some (JValue.str rid))).length
        < d.holdings.length
    · refine ⟨true,
        ⟨d.holdings.filter
          (fun m => ¬jlookup "id" m = some (JValue.str rid)),
         d.loans, d.sales⟩, ?_, ?_, ?_, ?_, ?_⟩
      · simp only [PortfolioStorage.remove_holding, hfil]
        rw [if_pos hlt]
      · simp only [true_iff]
        exact (keep_length_lt_iff rid d.holdings).mp hlt
      · intro hfalse
        exact absurd hfalse (by simp)
      · intro _
        exact ⟨rfl, rfl, rfl⟩
      · intro hnd _
        exact keep_length_nodup rid d.holdings hnd hlt
    · refine ⟨false, d, ?_, ?_, ?_, ?_, ?_⟩
      · simp only [PortfolioStorage.remove_holding, hfil]
        rw [if_neg hlt]
      · constructor
        · intro hfalse
          exact absurd hfalse (by simp)
        · intro hex
          exact absurd ((keep_length_lt_iff rid d.holdings).mpr hex) hlt
      · intro _
        rfl
      · intro htrue
        exact absurd htrue (by simp)
      · intro _ htrue
        exact absurd htrue (by simp)
  · intro hids
    have hfil := filterOutId_eq rid (d.sales.getD []) hids
    by_cases hlt : ((d.sales.getD []).filter
        (fun m => ¬jlookup "id" m = some (JValue.str rid))).length
        < (d.sales.getD []).length
    · refine ⟨true,
        ⟨d.holdings, d.loans,
         some ((d.sales.getD []).filter
          (fun m => ¬jlookup "id" m = some (JValue.str rid)))⟩,
        ?_, ?_, ?_, ?_, ?_⟩
      · simp only [PortfolioStorage.remove_sale, hfil]
        rw [if_pos hlt]
      · simp only [true_iff]
        exact (keep_length_lt_iff rid (d.sales.getD [])).mp hlt
      · intro hfalse
        exact absurd hfalse (by simp)
      · intro _
        exact ⟨rfl, rfl, rfl⟩
      · intro hnd _
        exact keep_length_nodup rid (d.sales.getD []) hnd hlt
    · refine ⟨false, d, ?_, ?_, ?_, ?_, ?_⟩
      · simp only [PortfolioStorage.remove_sale, hfil]
        rw [if_neg hlt]
      · constructor
        · intro hfalse
          exact absurd hfalse (by simp)
        · intro hex
          exact absurd
            ((keep_length_lt_iff rid (d.sales.getD [])).mpr hex) hlt
      · intro _
        rfl
      · intro htrue
        exact absurd htrue (by simp)
      · intro _ htrue
        exact absurd htrue (by simp)

/-- Witness for claim C5: removal of an existing holding id from the
populated sample document. -/
theorem claim_C5_witness :
    ∃ b e, PortfolioStorage.remove_holding "aaaa1111" sampleDoc
        = some (b, e)
      ∧ (b = true ↔ ∃ m ∈ sampleDoc.holdings,
          jlookup "id" m = some (JValue.str "aaaa1111"))
      ∧ (b = false → e = sampleDoc)
      ∧ (b = true → e.holdings = sampleDoc.holdings.filter
            (fun m => ¬jlookup "id" m = some (JValue.str "aaaa1111"))
          ∧ e.loans = sampleDoc.loans ∧ e.sales = sampleDoc.sales)
      ∧ ((sampleDoc.holdings.map (jlookup "id")).Nodup → b = true →
          e.holdings.length + 1 = sampleDoc.holdings.length) :=
  (claim_C5 sampleDoc "aaaa1111").1 (by decide)

end Follyo
